import Mathlib

/-!
Verification development for the client-side logic of the
Fraud-detection-dashboard repository: the filter/pagination engine
(`applyFilters`), the mock data generator (`generateMockTransactions`),
the refresh controller (`fetchTransactions`), the chart aggregations
(`ChartsPanel`), and the explanation-field normalization (`ExplainModal`).

Numbers are modelled as rationals (JS numbers used here are ordinary
decimals), instants as integer milliseconds with the local timezone taken
at UTC offset 0, and randomness as an explicit stream of draws in [0,1).
-/

namespace FraudDashboard

/-- A transaction record as produced by the backend or the mock generator. -/
structure Transaction where
  transaction_id : String
  user_id : String
  amount : ℚ
  country : String
  device : String
  merchant : String
  timestamp : ℤ
deriving DecidableEq

/-- A transaction together with the model score and fraud label
(the `{ tx, score, label }` rows of the dashboard). -/
structure ScoredTransaction where
  tx : Transaction
  score : ℚ
  label : Bool
deriving DecidableEq

/-- The filter state held by the dashboard page: search query, amount
range, selected country and merchant sets, fraud-only flag and optional
date range (instants in milliseconds). -/
structure FilterSpec where
  searchQuery : String
  amountRange : ℚ × ℚ
  selectedCountries : List String
  selectedMerchants : List String
  fraudOnly : Bool
  dateFrom : Option ℤ
  dateTo : Option ℤ
deriving DecidableEq

/-- The initial filter state (lines 42-56 of the page component):
empty query, amount range [0, 5000], no selected countries or merchants,
fraud-only off, no date range. -/
def defaultFilterSpec : FilterSpec :=
  { searchQuery := ""
    amountRange := (0, 5000)
    selectedCountries := []
    selectedMerchants := []
    fraudOnly := false
    dateFrom := none
    dateTo := none }

/-- Milliseconds in a day. -/
def msPerDay : ℤ := 86400000

/-- Start of the (UTC-offset-0 local) day of an instant:
models `d.setHours(0, 0, 0, 0)`. -/
def startOfDay (t : ℤ) : ℤ := msPerDay * (t.fdiv msPerDay)

/-- End of the day of an instant: models `d.setHours(23, 59, 59, 999)`. -/
def endOfDay (t : ℤ) : ℤ := startOfDay t + 86399999

/-- Does `needle` match at the head of `haystack`? -/
def leadMatch : List Char → List Char → Bool
  | _, [] => true
  | [], _ :: _ => false
  | c :: cs, d :: ds => c == d && leadMatch cs ds

/-- Does `needle` occur as a contiguous substring of `haystack`? -/
def hasSubstring : List Char → List Char → Bool
  | [], needle => needle.isEmpty
  | c :: cs, needle => leadMatch (c :: cs) needle || hasSubstring cs needle

/-- JS `s.includes(q)`: substring containment on strings. -/
def strIncludes (s q : String) : Bool := hasSubstring s.data q.data

/-- The free-text search predicate (lines 105-109): case-insensitive
substring match of the query against user id, merchant or country. -/
def matchesSearch (q : String) (t : ScoredTransaction) : Bool :=
  strIncludes t.tx.user_id.toLower q.toLower ||
  strIncludes t.tx.merchant.toLower q.toLower ||
  strIncludes t.tx.country.toLower q.toLower

/-- The sequential predicate passes of `applyFilters` (lines 100-148):
search if a query is present, amount range (always, inclusive), country
set if non-empty, merchant set if non-empty, fraud-only if enabled, date
lower bound normalized to midnight if present, date upper bound
normalized to end of day if present. -/
def applyFiltersList (spec : FilterSpec) (data : List ScoredTransaction) :
    List ScoredTransaction :=
  let f1 := if spec.searchQuery = "" then data
            else data.filter (matchesSearch spec.searchQuery)
  let f2 := f1.filter (fun t =>
    decide (spec.amountRange.1 ≤ t.tx.amount) && decide (t.tx.amount ≤ spec.amountRange.2))
  let f3 := if spec.selectedCountries = [] then f2
            else f2.filter (fun t => spec.selectedCountries.contains t.tx.country)
  let f4 := if spec.selectedMerchants = [] then f3
            else f3.filter (fun t => spec.selectedMerchants.contains t.tx.merchant)
  let f5 := if spec.fraudOnly then f4.filter (fun t => t.label) else f4
  let f6 := match spec.dateFrom with
    | some d => f5.filter (fun t => decide (startOfDay d ≤ t.tx.timestamp))
    | none => f5
  let f7 := match spec.dateTo with
    | some d => f6.filter (fun t => decide (t.tx.timestamp ≤ endOfDay d))
    | none => f6
  f7

/-- `applyFilters` (lines 100-153): filter, then report the matching count
and the slice `[(page-1)*perPage, page*perPage)` for display. -/
def applyFilters (data : List ScoredTransaction) (spec : FilterSpec)
    (page perPage : ℕ) : List ScoredTransaction × ℕ :=
  let filtered := applyFiltersList spec data
  ((filtered.drop ((page - 1) * perPage)).take perPage, filtered.length)

/-- The fixed merchant enumeration of the mock generator (line 12). -/
def MOCK_MERCHANTS : List String :=
  ["Amazon", "Uber", "Apple Store", "Walmart", "Target", "Netflix", "Steam"]

/-- The fixed country enumeration of the mock generator (line 24). -/
def MOCK_COUNTRIES : List String := ["US", "IN", "GB", "CA"]

/-- The `Math.random()` draws consumed by one generated record, in source
order: amount, fraud flag, user id, country, device, merchant, score.
Each is a value in [0, 1). -/
structure RandDraws where
  amtDraw : ℚ
  fraudDraw : ℚ
  userDraw : ℚ
  countryDraw : ℚ
  deviceDraw : ℚ
  merchantDraw : ℚ
  scoreDraw : ℚ

/-- JS `parseFloat(x.toFixed(2))` for non-negative `x`: round to two
decimal places, half away from zero. -/
def round2 (q : ℚ) : ℚ := (⌊q * 100 + 1 / 2⌋ : ℚ) / 100

/-- Decimal rendering of a natural number, as produced by a JS template
literal interpolating a number: most significant digit first. -/
def natToString (n : ℕ) : String :=
  if n = 0 then "0"
  else (((Nat.digits 10 n).map Nat.digitChar).reverse).asString

/-- One record of the mock generator (lines 16-31): amount uniform over
[100, 5100) rounded to cents, fraud with probability 0.3 (draw strictly
above 0.7), score in [0.5, 1) when fraudulent and [0, 0.4) otherwise,
country, device and merchant drawn from the fixed enumerations, sequential
id `TX<idNum>`, timestamp set to generation time. -/
def mockRecord (d : RandDraws) (now : ℤ) (idNum : ℕ) : ScoredTransaction :=
  let amt : ℚ := d.amtDraw * 5000 + 100
  let isFraud : Bool := decide (d.fraudDraw > 7 / 10)
  { tx :=
    { transaction_id := "TX" ++ natToString idNum
      user_id := "U" ++ natToString (⌊d.userDraw * 200⌋).toNat
      amount := round2 amt
      country := MOCK_COUNTRIES.getD (⌊d.countryDraw * 4⌋).toNat "US"
      device := (["mobile", "desktop"] : List String).getD (⌊d.deviceDraw * 2⌋).toNat "mobile"
      merchant := MOCK_MERCHANTS.getD (⌊d.merchantDraw * 7⌋).toNat "Amazon"
      timestamp := now }
    score := if isFraud then d.scoreDraw * (1 / 2) + 1 / 2 else d.scoreDraw * (2 / 5)
    label := isFraud }

/-- `generateMockTransactions(count, offset)` (lines 14-34) with the
random source made explicit: record `i` consumes draw block `i` and gets
id `TX<offset+i+1>`. -/
def generateMockTransactions (draws : ℕ → RandDraws) (now : ℤ)
    (count offset : ℕ) : List ScoredTransaction :=
  (List.range count).map (fun i => mockRecord (draws i) now (offset + i + 1))

/-- The notifications the page can surface from a refresh: the high-risk
toast (line 80) with its reported count, and the fetch-failure toast
(line 89). -/
inductive Notification where
  | highRisk (count : ℕ)
  | fetchError
deriving DecidableEq

/-- The newly appeared high-risk transactions (lines 74-77): present now
with a true label and score above 0.7, and id absent from the previous
snapshot. -/
def newHighRisk (prev cur : List ScoredTransaction) : List ScoredTransaction :=
  cur.filter (fun t =>
    t.label && decide (t.score > 7 / 10) &&
    !(prev.any (fun p => p.tx.transaction_id == t.tx.transaction_id)))

/-- The page state touched by the refresh and filter logic: the full
in-memory set, the previous snapshot used for the high-risk diff, the
displayed page and matching count, demo mode, and the filter inputs. -/
structure DashState where
  allTransactions : List ScoredTransaction
  previousSnapshot : List ScoredTransaction
  transactions : List ScoredTransaction
  total : ℕ
  demoMode : Bool
  spec : FilterSpec
  page : ℕ
  perPage : ℕ

/-- Re-run the filter engine against the current set (the call
`applyFilters(data)` reading the current filter state and page). -/
def recomputeView (st : DashState) : DashState :=
  let r := applyFilters st.allTransactions st.spec st.page st.perPage
  { st with transactions := r.1, total := r.2 }

/-- `fetchTransactions(silent)` (lines 61-98) with the network outcome
made explicit: `some allData` is a parsed 2xx response body's result list,
`none` is any network error, non-2xx status or malformed body. On success
the in-memory set is replaced, the high-risk diff runs when silent and a
previous snapshot exists, the snapshot reference is updated
unconditionally and the filters re-run. On failure a toast fires unless
silent, demo mode is entered, 100 mock records are installed, the
snapshot reference is updated and the filters re-run. -/
def fetchTransactions (st : DashState) (silent : Bool)
    (result : Option (List ScoredTransaction))
    (draws : ℕ → RandDraws) (now : ℤ) : DashState × List Notification :=
  match result with
  | some allData =>
    let notifs :=
      if silent && st.previousSnapshot.length > 0 then
        let nhr := newHighRisk st.previousSnapshot allData
        if nhr.length > 0 then [Notification.highRisk nhr.length] else []
      else []
    let st1 := recomputeView
      { st with allTransactions := allData, previousSnapshot := allData }
    (st1, notifs)
  | none =>
    let notifs := if silent then [] else [Notification.fetchError]
    let mockData := generateMockTransactions draws now 100 0
    let st1 := recomputeView
      { st with allTransactions := mockData, previousSnapshot := mockData,
                demoMode := true }
    (st1, notifs)

/-- A filter or search change (the effect at lines 187-189): the filter
state is replaced and the view recomputed against the unchanged
in-memory set; the page index is not touched. -/
def changeFilters (st : DashState) (spec : FilterSpec) : DashState :=
  recomputeView { st with spec := spec }

/-- Fraudulent count of the fraud-vs-legitimate pie (part_001 lines
120-131). -/
def fraudCount (ts : List ScoredTransaction) : ℕ :=
  (ts.filter (fun t => t.label)).length

/-- Legitimate count of the fraud-vs-legitimate pie. -/
def legitimateCount (ts : List ScoredTransaction) : ℕ :=
  (ts.filter (fun t => !t.label)).length

/-- One entry of the per-country aggregation object of `ChartsPanel`. -/
structure CountryAgg where
  country : String
  total : ℚ
  fraud : ℚ
  legitimate : ℚ
deriving DecidableEq

/-- One step of the `countryData` reduce (part_001 lines 134-146): look
the country key up in the accumulator (object keys are unique, insertion
ordered), creating a zeroed entry at the end when absent, then add the
amount to `total` and to `fraud` or `legitimate` according to the label. -/
def countryStep (t : ScoredTransaction) : List CountryAgg → List CountryAgg
  | [] =>
    [{ country := t.tx.country
       total := t.tx.amount
       fraud := if t.label then t.tx.amount else 0
       legitimate := if t.label then 0 else t.tx.amount }]
  | a :: rest =>
    if a.country = t.tx.country then
      { a with
        total := a.total + t.tx.amount
        fraud := if t.label then a.fraud + t.tx.amount else a.fraud
        legitimate := if t.label then a.legitimate else a.legitimate + t.tx.amount } :: rest
    else a :: countryStep t rest

/-- The per-country aggregation of `ChartsPanel` as an insertion-ordered
association list. -/
def countryData (ts : List ScoredTransaction) : List CountryAgg :=
  ts.foldl (fun acc t => countryStep t acc) []

/-- A raw explanation item as it may arrive from the backend: each field
is present (`some`) or absent (`none`). -/
structure RawExplanationItem where
  feature : Option String
  feature_name : Option String
  shap_value : Option ℚ
  shapValue : Option ℚ
  value : Option ℚ
  feature_value : Option ℚ

/-- The canonical explanation item shape produced by `ExplainModal`. -/
structure ExplanationItem where
  feature : String
  shap_value : ℚ
  raw_value : Option ℚ

/-- The normalization of one backend item (FilterControls.tsx lines
366-383): destructuring defaults make `feature_name` fall back to
`feature`, `shapValue` to `shap_value` and `feature_value` to `value`
when absent; then the canonical item takes `feature_name` (or
"unknown"), `shapValue` falling back once more to `shap_value` and 0,
and `feature_value` falling back to `value` and null. -/
def normalizeItem (it : RawExplanationItem) : ExplanationItem :=
  let feature_name := match it.feature_name with
    | some f => some f
    | none => it.feature
  let shapValue := match it.shapValue with
    | some v => some v
    | none => it.shap_value
  let feature_value := match it.feature_value with
    | some v => some v
    | none => it.value
  { feature := feature_name.getD "unknown"
    shap_value := (match shapValue with
      | some v => some v
      | none => it.shap_value).getD 0
    raw_value := match feature_value with
      | some v => some v
      | none => it.value }

/-- The item list normalization of `ExplainModal`. -/
def normalizeExplanations (items : List RawExplanationItem) : List ExplanationItem :=
  items.map normalizeItem

/-- A concrete legitimate transaction used in examples. -/
def exampleTx : Transaction :=
  { transaction_id := "TX1", user_id := "U1", amount := 50, country := "US"
    device := "mobile", merchant := "Amazon", timestamp := 0 }

/-- A concrete legitimate scored row. -/
def exampleScored : ScoredTransaction := { tx := exampleTx, score := 1 / 5, label := false }

/-- A concrete transaction with an id absent from the example snapshot. -/
def freshTx : Transaction :=
  { transaction_id := "TX99", user_id := "U2", amount := 200, country := "IN"
    device := "desktop", merchant := "Uber", timestamp := 0 }

/-- The fresh transaction scored high risk (label true, score 0.85). -/
def freshHighScored : ScoredTransaction := { tx := freshTx, score := 17 / 20, label := true }

/-- The fresh transaction with score 0.5 (not above the 0.7 threshold). -/
def freshLowScored : ScoredTransaction := { tx := freshTx, score := 1 / 2, label := true }

/-- A constant stream of middle-of-the-range random draws. -/
def exampleDraws : ℕ → RandDraws :=
  fun _ => { amtDraw := 1 / 2, fraudDraw := 1 / 2, userDraw := 1 / 2, countryDraw := 1 / 2
             deviceDraw := 1 / 2, merchantDraw := 1 / 2, scoreDraw := 1 / 2 }

/-- A draw stream whose amount draw is close to 1, making the generated
amount round to 5100. -/
def highAmtDraws : ℕ → RandDraws :=
  fun _ => { amtDraw := 9999999 / 10000000, fraudDraw := 0, userDraw := 0, countryDraw := 0
             deviceDraw := 0, merchantDraw := 0, scoreDraw := 0 }

/-- A concrete dashboard state on page 1 with one stored transaction. -/
def exampleState : DashState :=
  { allTransactions := [exampleScored], previousSnapshot := [exampleScored]
    transactions := [], total := 0, demoMode := false
    spec := defaultFilterSpec, page := 1, perPage := 10 }

/-- A concrete dashboard state sitting on page 2. -/
def pagedState : DashState :=
  { allTransactions := [exampleScored], previousSnapshot := [exampleScored]
    transactions := [], total := 0, demoMode := false
    spec := defaultFilterSpec, page := 2, perPage := 10 }

/-- A raw explanation item that offers only the alias names
(`feature_name`, `shapValue`, `feature_value`). -/
def aliasRawItem : RawExplanationItem :=
  { feature := none, feature_name := some "num__amount"
    shap_value := none, shapValue := some (3 / 20)
    value := none, feature_value := some 42 }

/-! ## Theorems -/

theorem mem_of_mem_ite_filter_pos {α : Type} {c : Prop} [Decidable c] {p : α → Bool}
    {l : List α} {t : α} (h : t ∈ if c then l.filter p else l) :
    t ∈ l ∧ (c → p t = true) := by
  by_cases hc : c
  · rw [if_pos hc] at h
    exact ⟨(List.mem_filter.mp h).1, fun _ => (List.mem_filter.mp h).2⟩
  · rw [if_neg hc] at h
    exact ⟨h, fun hcc => absurd hcc hc⟩

theorem mem_of_mem_ite_filter_neg {α : Type} {c : Prop} [Decidable c] {p : α → Bool}
    {l : List α} {t : α} (h : t ∈ if c then l else l.filter p) :
    t ∈ l ∧ (¬c → p t = true) := by
  by_cases hc : c
  · rw [if_pos hc] at h
    exact ⟨h, fun hcc => absurd hc hcc⟩
  · rw [if_neg hc] at h
    exact ⟨(List.mem_filter.mp h).1, fun _ => (List.mem_filter.mp h).2⟩

theorem mem_of_mem_option_filter {α : Type} {o : Option ℤ} {p : ℤ → α → Bool}
    {l : List α} {t : α}
    (h : t ∈ match o with | some d => l.filter (p d) | none => l) :
    t ∈ l ∧ ∀ d, o = some d → p d t = true := by
  cases o with
  | none => exact ⟨h, fun d hd => by cases hd⟩
  | some d =>
    refine ⟨(List.mem_filter.mp h).1, fun e he => ?_⟩
    cases he
    exact (List.mem_filter.mp h).2

/-- Every survivor of the predicate passes is drawn from the input and
satisfies each active predicate. -/
theorem mem_applyFiltersList {spec : FilterSpec} {data : List ScoredTransaction}
    {t : ScoredTransaction} (h : t ∈ applyFiltersList spec data) :
    t ∈ data ∧
    (spec.searchQuery ≠ "" → matchesSearch spec.searchQuery t = true) ∧
    (spec.amountRange.1 ≤ t.tx.amount ∧ t.tx.amount ≤ spec.amountRange.2) ∧
    (spec.selectedCountries ≠ [] → t.tx.country ∈ spec.selectedCountries) ∧
    (spec.selectedMerchants ≠ [] → t.tx.merchant ∈ spec.selectedMerchants) ∧
    (spec.fraudOnly = true → t.label = true) ∧
    (∀ d, spec.dateFrom = some d → startOfDay d ≤ t.tx.timestamp) ∧
    (∀ d, spec.dateTo = some d → t.tx.timestamp ≤ endOfDay d) := by
  unfold applyFiltersList at h
  obtain ⟨h, hTo⟩ := mem_of_mem_option_filter h
  obtain ⟨h, hFrom⟩ := mem_of_mem_option_filter h
  obtain ⟨h, hFraud⟩ := mem_of_mem_ite_filter_pos h
  obtain ⟨h, hMerch⟩ := mem_of_mem_ite_filter_neg h
  obtain ⟨h, hCountry⟩ := mem_of_mem_ite_filter_neg h
  have hAmt := (List.mem_filter.mp h).2
  have h := (List.mem_filter.mp h).1
  obtain ⟨h, hSearch⟩ := mem_of_mem_ite_filter_neg h
  refine ⟨h, hSearch, ?_, ?_, ?_, hFraud, ?_, ?_⟩
  · simpa using hAmt
  · intro hne
    simpa using hCountry hne
  · intro hne
    simpa using hMerch hne
  · intro d hd
    simpa using hFrom d hd
  · intro d hd
    simpa using hTo d hd

/-- C1: every item in the page produced by `applyFilters` is drawn from
the input list and simultaneously satisfies every active predicate:
case-insensitive substring search when a query is present, the inclusive
amount range, country and merchant set membership when the sets are
non-empty, the fraud label when fraud-only is on, and the date bounds
normalized to midnight and end of day when present. -/
theorem filtered_page_items_satisfy_all_active_predicates
    (data : List ScoredTransaction) (spec : FilterSpec) (page perPage : ℕ)
    (t : ScoredTransaction) (h : t ∈ (applyFilters data spec page perPage).1) :
    t ∈ data ∧
    (spec.searchQuery ≠ "" → matchesSearch spec.searchQuery t = true) ∧
    (spec.amountRange.1 ≤ t.tx.amount ∧ t.tx.amount ≤ spec.amountRange.2) ∧
    (spec.selectedCountries ≠ [] → t.tx.country ∈ spec.selectedCountries) ∧
    (spec.selectedMerchants ≠ [] → t.tx.merchant ∈ spec.selectedMerchants) ∧
    (spec.fraudOnly = true → t.label = true) ∧
    (∀ d, spec.dateFrom = some d → startOfDay d ≤ t.tx.timestamp) ∧
    (∀ d, spec.dateTo = some d → t.tx.timestamp ≤ endOfDay d) := by
  have h1 : t ∈ applyFiltersList spec data :=
    List.mem_of_mem_drop (List.mem_of_mem_take h)
  exact mem_applyFiltersList h1

/-- Witness for C1 at a concrete input: the example row survives the
default filter on page 1 and indeed came from the input with all
predicates satisfied. -/
theorem filtered_page_items_satisfy_all_active_predicates_witness :
    exampleScored ∈ [exampleScored] ∧
    (defaultFilterSpec.searchQuery ≠ "" →
      matchesSearch defaultFilterSpec.searchQuery exampleScored = true) ∧
    (defaultFilterSpec.amountRange.1 ≤ exampleScored.tx.amount ∧
      exampleScored.tx.amount ≤ defaultFilterSpec.amountRange.2) ∧
    (defaultFilterSpec.selectedCountries ≠ [] →
      exampleScored.tx.country ∈ defaultFilterSpec.selectedCountries) ∧
    (defaultFilterSpec.selectedMerchants ≠ [] →
      exampleScored.tx.merchant ∈ defaultFilterSpec.selectedMerchants) ∧
    (defaultFilterSpec.fraudOnly = true → exampleScored.label = true) ∧
    (∀ d, defaultFilterSpec.dateFrom = some d → startOfDay d ≤ exampleScored.tx.timestamp) ∧
    (∀ d, defaultFilterSpec.dateTo = some d → exampleScored.tx.timestamp ≤ endOfDay d) :=
  filtered_page_items_satisfy_all_active_predicates
    [exampleScored] defaultFilterSpec 1 10 exampleScored
    (by norm_num [applyFilters, applyFiltersList, defaultFilterSpec,
                  exampleScored, exampleTx, List.filter])

theorem join_chunks {α : Type} (ps : ℕ) :
    ∀ (k : ℕ) (l : List α), l.length ≤ k * ps →
      ((List.range k).map (fun i => (l.drop (i * ps)).take ps)).flatten = l := by
  intro k
  induction k with
  | zero =>
    intro l hl
    have h0 : l = [] := List.eq_nil_of_length_eq_zero (Nat.le_zero.mp (by simpa using hl))
    simp [h0]
  | succ k ih =>
    intro l hl
    rw [List.range_succ_eq_map, List.map_cons, List.map_map, List.flatten_cons]
    have hrw : ((List.range k).map ((fun i => (l.drop (i * ps)).take ps) ∘ Nat.succ)) =
        ((List.range k).map (fun i => ((l.drop ps).drop (i * ps)).take ps)) := by
      apply List.map_congr_left
      intro i _
      simp only [Function.comp_apply, List.drop_drop]
      rw [Nat.succ_mul, Nat.add_comm (i * ps) ps]
    rw [hrw, ih (l.drop ps) (by simp only [List.length_drop, Nat.succ_mul] at hl ⊢; omega)]
    simpa using List.take_append_drop ps l

/-- C2: `totalMatching` is the filtered length, the page is the slice
`[(page-1)*perPage, page*perPage)`, its length is `perPage` clamped
by what remains, and concatenating pages 1..k (for any k covering the
whole filtered list) reconstructs the filtered list in order. -/
theorem pagination_slices_partition_filtered_list
    (data : List ScoredTransaction) (spec : FilterSpec) (page perPage : ℕ)
    (hpage : 1 ≤ page) (hper : 0 < perPage) :
    (applyFilters data spec page perPage).2 = (applyFiltersList spec data).length ∧
    (applyFilters data spec page perPage).1 =
      ((applyFiltersList spec data).drop ((page - 1) * perPage)).take perPage ∧
    (applyFilters data spec page perPage).1.length =
      min perPage ((applyFilters data spec page perPage).2 - (page - 1) * perPage) ∧
    ∀ k, (applyFilters data spec page perPage).2 ≤ k * perPage →
      ((List.range k).map (fun i => (applyFilters data spec (i + 1) perPage).1)).flatten =
        applyFiltersList spec data := by
  refine ⟨rfl, rfl, ?_, ?_⟩
  · simp [applyFilters]
  · intro k hk
    have hpages : ((List.range k).map (fun i => (applyFilters data spec (i + 1) perPage).1)) =
        ((List.range k).map (fun i => ((applyFiltersList spec data).drop (i * perPage)).take perPage)) := by
      apply List.map_congr_left
      intro i _
      simp [applyFilters]
    rw [hpages]
    exact join_chunks perPage k (applyFiltersList spec data) hk

/-- Witness for C2 at a concrete input: page 1 of size 10 over a
one-element list has the clamped length and one page reconstructs the
filtered list. -/
theorem pagination_slices_partition_filtered_list_witness :
    (applyFilters [exampleScored] defaultFilterSpec 1 10).1.length =
      min 10 ((applyFilters [exampleScored] defaultFilterSpec 1 10).2 - 0 * 10) ∧
    ∀ k, (applyFilters [exampleScored] defaultFilterSpec 1 10).2 ≤ k * 10 →
      ((List.range k).map (fun i => (applyFilters [exampleScored] defaultFilterSpec (i + 1) 10).1)).flatten =
        applyFiltersList defaultFilterSpec [exampleScored] :=
  ⟨(pagination_slices_partition_filtered_list [exampleScored] defaultFilterSpec 1 10
      (by norm_num) (by norm_num)).2.2.1,
   (pagination_slices_partition_filtered_list [exampleScored] defaultFilterSpec 1 10
      (by norm_num) (by norm_num)).2.2.2⟩

theorem newHighRisk_eq_filter (A B : List ScoredTransaction) :
    newHighRisk A B =
      (B.filter (fun t => !(A.any (fun p => p.tx.transaction_id == t.tx.transaction_id)))).filter
        (fun t => t.label && decide (t.score > 7 / 10)) := by
  rw [List.filter_filter]
  apply List.filter_congr
  intro x _
  cases x.label <;> cases hd : decide (x.score > 7 / 10) <;>
    cases hf : (!(A.any (fun p => p.tx.transaction_id == x.tx.transaction_id))) <;>
    simp [hd, hf]

/-- C3: during a successful silent refresh with a non-empty previous
snapshot A, if exactly one record of the new snapshot B has an id absent
from A, then a single high-risk notification reporting count 1 fires
exactly when that record has a true label and score above 0.7; the
detected set is exactly the B-records with true label, score above 0.7
and fresh id; and no notification fires when that set is empty, when the
refresh is not silent, or when no previous snapshot exists. -/
theorem silent_refresh_high_risk_notification
    (st : DashState) (A B : List ScoredTransaction) (n : ScoredTransaction)
    (draws : ℕ → RandDraws) (now : ℤ)
    (hprev : st.previousSnapshot = A) (hA : A ≠ [])
    (hfresh : B.filter
      (fun t => !(A.any (fun p => p.tx.transaction_id == t.tx.transaction_id))) = [n]) :
    (∀ t, t ∈ newHighRisk A B ↔
      (t ∈ B ∧ t.label = true ∧ 7 / 10 < t.score ∧
        ∀ p ∈ A, p.tx.transaction_id ≠ t.tx.transaction_id)) ∧
    (n.label = true → 7 / 10 < n.score →
      (fetchTransactions st true (some B) draws now).2 = [Notification.highRisk 1]) ∧
    (n.label = false ∨ ¬(7 / 10 < n.score) →
      (fetchTransactions st true (some B) draws now).2 = []) ∧
    (newHighRisk A B = [] → (fetchTransactions st true (some B) draws now).2 = []) ∧
    ((fetchTransactions st false (some B) draws now).2 = []) ∧
    (∀ st2 : DashState, st2.previousSnapshot = [] →
      (fetchTransactions st2 true (some B) draws now).2 = []) := by
  have hlen : 0 < A.length := List.length_pos.mpr hA
  refine ⟨?_, ?_, ?_, ?_, ?_, ?_⟩
  · intro t
    simp only [newHighRisk, List.mem_filter, Bool.and_eq_true, decide_eq_true_eq,
      Bool.not_eq_true', List.any_eq_false, beq_eq_false_iff_ne, beq_iff_eq,
      ne_eq, gt_iff_lt]
    tauto
  · intro hlab hsc
    have hset : newHighRisk A B = [n] := by
      rw [newHighRisk_eq_filter, hfresh]
      simp [hlab, hsc]
    simp [fetchTransactions, hprev, hlen, hset]
  · intro hno
    have hset : newHighRisk A B = [] := by
      rw [newHighRisk_eq_filter, hfresh]
      rcases hno with hno | hno <;> simp [hno]
    simp [fetchTransactions, hprev, hlen, hset]
  · intro hset
    simp [fetchTransactions, hprev, hlen, hset]
  · simp [fetchTransactions]
  · intro st2 h2
    simp [fetchTransactions, h2]

/-- Witness for C3 at concrete snapshots: the example snapshot plus one
fresh high-risk row yields exactly one notification reporting count 1. -/
theorem silent_refresh_high_risk_notification_witness :
    (fetchTransactions exampleState true (some [exampleScored, freshHighScored])
      exampleDraws 0).2 = [Notification.highRisk 1] :=
  (silent_refresh_high_risk_notification exampleState [exampleScored]
      [exampleScored, freshHighScored] freshHighScored exampleDraws 0
      rfl (by simp)
      (by simp [exampleScored, freshHighScored, exampleTx, freshTx, List.filter])).2.1
    rfl (by norm_num [freshHighScored])

/-- Counterexample to C4 as stated: a refresh whose fetch succeeds with
an empty result list leaves the in-memory transaction set empty, so it is
not true that after every refresh, successful or failed, the set is
non-empty. -/
theorem successful_empty_fetch_leaves_empty_set :
    (fetchTransactions exampleState false (some []) exampleDraws 0).1.allTransactions
      = [] := rfl

/-- C4 (amended): when the fetch fails, exactly one error notification is
surfaced unless the refresh is silent, demo mode is entered, the
in-memory set is replaced with the 100 mock records (hence non-empty
after every failed refresh), and the filter engine is re-run on them;
the failure is absorbed rather than propagated. -/
theorem failed_fetch_falls_back_to_mock_data
    (st : DashState) (silent : Bool) (draws : ℕ → RandDraws) (now : ℤ) :
    (fetchTransactions st silent none draws now).2 =
      (if silent then [] else [Notification.fetchError]) ∧
    (fetchTransactions st silent none draws now).1.demoMode = true ∧
    (fetchTransactions st silent none draws now).1.allTransactions =
      generateMockTransactions draws now 100 0 ∧
    (fetchTransactions st silent none draws now).1.allTransactions.length = 100 ∧
    (fetchTransactions st silent none draws now).1.allTransactions ≠ [] ∧
    (fetchTransactions st silent none draws now).1.previousSnapshot =
      generateMockTransactions draws now 100 0 ∧
    (fetchTransactions st silent none draws now).1.transactions =
      (applyFilters (generateMockTransactions draws now 100 0) st.spec st.page st.perPage).1 ∧
    (fetchTransactions st silent none draws now).1.total =
      (applyFilters (generateMockTransactions draws now 100 0) st.spec st.page st.perPage).2 := by
  refine ⟨rfl, rfl, rfl, ?_, ?_, rfl, rfl, rfl⟩
  · simp [fetchTransactions, recomputeView, generateMockTransactions]
  · intro h
    have : (fetchTransactions st silent none draws now).1.allTransactions.length = 100 := by
      simp [fetchTransactions, recomputeView, generateMockTransactions]
    rw [h] at this
    simp at this

/-- C5 counterexample: with every filter field at its default, a list the
mock generator can produce (one record whose amount rounds to 5100) is
not returned whole: the always-applied amount bound [0, 5000] removes
the record. -/
theorem default_filters_do_restrict_mock_amounts :
    applyFiltersList defaultFilterSpec (generateMockTransactions highAmtDraws 0 1 0) ≠
      generateMockTransactions highAmtDraws 0 1 0 := by
  have hamt : (generateMockTransactions highAmtDraws 0 1 0) =
      [mockRecord (highAmtDraws 0) 0 1] := rfl
  have hval : (mockRecord (highAmtDraws 0) 0 1).tx.amount = 5100 := by
    norm_num [mockRecord, highAmtDraws, round2]
  intro h
  have hm : mockRecord (highAmtDraws 0) 0 1 ∈
      applyFiltersList defaultFilterSpec (generateMockTransactions highAmtDraws 0 1 0) := by
    rw [h, hamt]; exact List.mem_singleton.mpr rfl
  have hb := (mem_applyFiltersList hm).2.2.1.2
  rw [hval] at hb
  simp [defaultFilterSpec] at hb
  norm_num at hb

/-- C5 (amended): the default filter state imposes no restriction on a
list all of whose amounts lie within the default amount range [0, 5000]:
the filtered result is the whole input and `totalMatching` is its
length. The amount bound itself is always applied, so inputs with
amounts above 5000 (which the mock generator can produce, up to 5100)
are restricted. -/
theorem default_filters_preserve_inputs_within_amount_range
    (data : List ScoredTransaction)
    (hb : ∀ t ∈ data, 0 ≤ t.tx.amount ∧ t.tx.amount ≤ 5000) :
    applyFiltersList defaultFilterSpec data = data ∧
    ∀ page perPage : ℕ, (applyFilters data defaultFilterSpec page perPage).2 = data.length := by
  have hfull : applyFiltersList defaultFilterSpec data = data := by
    simp [applyFiltersList, defaultFilterSpec]
    exact hb
  exact ⟨hfull, fun page perPage => by simp [applyFilters, hfull]⟩

/-- Witness for the amended C5 at a concrete input: the example row has
amount 50 and survives untouched with a matching total. -/
theorem default_filters_preserve_inputs_within_amount_range_witness :
    applyFiltersList defaultFilterSpec [exampleScored] = [exampleScored] ∧
    ∀ page perPage : ℕ,
      (applyFilters [exampleScored] defaultFilterSpec page perPage).2 = [exampleScored].length :=
  default_filters_preserve_inputs_within_amount_range [exampleScored]
    (by intro t ht
        rw [List.mem_singleton.mp ht]
        norm_num [exampleScored, exampleTx])

/-- C6: after every completed refresh, on either path, the previous
snapshot reference equals the transaction set just installed: the fetched
batch on success and the fresh mock data on failure. -/
theorem snapshot_reference_tracks_installed_set
    (st : DashState) (silent : Bool) (result : Option (List ScoredTransaction))
    (l : List ScoredTransaction) (draws : ℕ → RandDraws) (now : ℤ) :
    (fetchTransactions st silent result draws now).1.previousSnapshot =
      (fetchTransactions st silent result draws now).1.allTransactions ∧
    (fetchTransactions st silent (some l) draws now).1.allTransactions = l ∧
    (fetchTransactions st silent none draws now).1.allTransactions =
      generateMockTransactions draws now 100 0 := by
  refine ⟨?_, rfl, rfl⟩
  cases result <;> rfl

theorem string_eq_of_data_eq {s t : String} (h : s.data = t.data) : s = t := by
  cases s; cases t; simp at h; rw [h]

theorem digitChar_inj_on :
    ∀ a : ℕ, a < 10 → ∀ b : ℕ, b < 10 → Nat.digitChar a = Nat.digitChar b → a = b := by
  decide

theorem map_digitChar_inj : ∀ (l1 l2 : List ℕ), (∀ x ∈ l1, x < 10) → (∀ x ∈ l2, x < 10) →
    l1.map Nat.digitChar = l2.map Nat.digitChar → l1 = l2
  | [], [], _, _, _ => rfl
  | [], _ :: _, _, _, h => by simp at h
  | _ :: _, [], _, _, h => by simp at h
  | a :: l1, b :: l2, h1, h2, h => by
    simp only [List.map_cons, List.cons.injEq] at h
    have hab : a = b := digitChar_inj_on a (h1 a (List.mem_cons_self a l1))
      b (h2 b (List.mem_cons_self b l2)) h.1
    rw [hab, map_digitChar_inj l1 l2 (fun x hx => h1 x (List.mem_cons_of_mem _ hx))
      (fun x hx => h2 x (List.mem_cons_of_mem _ hx)) h.2]

theorem natToString_inj : Function.Injective natToString := by
  have key : ∀ n : ℕ, n ≠ 0 → ((Nat.digits 10 n).map Nat.digitChar).reverse ≠ ['0'] := by
    intro n hn hcon
    have hsing : (Nat.digits 10 n).map Nat.digitChar = ['0'] := by
      have := congrArg List.reverse hcon
      simpa using this
    have hlast := Nat.getLast_digit_ne_zero 10 hn
    cases hd : Nat.digits 10 n with
    | nil => rw [hd] at hsing; simp at hsing
    | cons d rest =>
      rw [hd] at hsing
      simp only [List.map_cons, List.cons.injEq] at hsing
      have hrest : rest = [] := List.map_eq_nil_iff.mp hsing.2
      have hd10 : d < 10 := Nat.digits_lt_base (by norm_num)
        (by rw [hd]; exact List.mem_cons_self d rest)
      have hd0 : d = 0 := digitChar_inj_on d hd10 0 (by norm_num) (by rw [hsing.1]; rfl)
      simp [hd, hrest, hd0] at hlast
  intro m n h
  unfold natToString at h
  by_cases hm : m = 0 <;> by_cases hn : n = 0
  · rw [hm, hn]
  · rw [if_pos hm, if_neg hn] at h
    exact absurd ((List.asString_eq.mp h.symm).trans rfl) (key n hn)
  · rw [if_neg hm, if_pos hn] at h
    exact absurd ((List.asString_eq.mp h).trans rfl) (key m hm)
  · rw [if_neg hm, if_neg hn] at h
    have hdata : ((Nat.digits 10 m).map Nat.digitChar).reverse =
        ((Nat.digits 10 n).map Nat.digitChar).reverse := congrArg String.data h
    have hdig := map_digitChar_inj _ _ (fun x hx => Nat.digits_lt_base (by norm_num) hx)
      (fun x hx => Nat.digits_lt_base (by norm_num) hx) (List.reverse_injective hdata)
    have := congrArg (Nat.ofDigits 10) hdig
    rw [Nat.ofDigits_digits, Nat.ofDigits_digits] at this
    exact_mod_cast this

theorem txId_inj (offset : ℕ) :
    Function.Injective (fun i : ℕ => "TX" ++ natToString (offset + i + 1)) := by
  intro i j h
  have hdata : "TX".data ++ (natToString (offset + i + 1)).data =
      "TX".data ++ (natToString (offset + j + 1)).data := congrArg String.data h
  have h2 := List.append_cancel_left hdata
  have h3 := natToString_inj (string_eq_of_data_eq h2)
  omega

theorem round2_amt_bounds {d : ℚ} (h0 : 0 ≤ d) (h1 : d < 1) :
    100 ≤ round2 (d * 5000 + 100) ∧ round2 (d * 5000 + 100) ≤ 5100 := by
  have hy0 : (10000 : ℚ) ≤ (d * 5000 + 100) * 100 + 1 / 2 := by linarith
  have hy1 : (d * 5000 + 100) * 100 + 1 / 2 < 510001 := by linarith
  have hfl : (10000 : ℤ) ≤ ⌊(d * 5000 + 100) * 100 + 1 / 2⌋ :=
    Int.le_floor.mpr (by exact_mod_cast hy0)
  have hfu : ⌊(d * 5000 + 100) * 100 + 1 / 2⌋ < 510001 :=
    Int.floor_lt.mpr (by exact_mod_cast hy1)
  constructor
  · unfold round2
    have hc : (10000 : ℚ) ≤ (⌊(d * 5000 + 100) * 100 + 1 / 2⌋ : ℚ) := by exact_mod_cast hfl
    linarith
  · unfold round2
    have hc : ((⌊(d * 5000 + 100) * 100 + 1 / 2⌋ : ℤ) : ℚ) ≤ 510000 := by
      exact_mod_cast Int.lt_add_one_iff.mp hfu
    linarith

theorem mockRecord_score_bounds {d : RandDraws} {now : ℤ} {k : ℕ}
    (h0 : 0 ≤ d.scoreDraw) (h1 : d.scoreDraw < 1) :
    ((mockRecord d now k).label = true →
      1 / 2 ≤ (mockRecord d now k).score ∧ (mockRecord d now k).score < 1) ∧
    ((mockRecord d now k).label = false →
      0 ≤ (mockRecord d now k).score ∧ (mockRecord d now k).score < 2 / 5) := by
  have hlb : (mockRecord d now k).label = decide (d.fraudDraw > 7 / 10) := rfl
  have hsc : (mockRecord d now k).score =
      if decide (d.fraudDraw > 7 / 10) then d.scoreDraw * (1 / 2) + 1 / 2
      else d.scoreDraw * (2 / 5) := rfl
  cases hf : decide (d.fraudDraw > 7 / 10) with
  | false =>
    rw [hf] at hlb hsc
    simp only [Bool.false_eq_true, if_false] at hsc
    refine ⟨fun hcon => absurd (hlb ▸ hcon) (by simp), fun _ => ?_⟩
    constructor
    · rw [hsc]; exact mul_nonneg h0 (by norm_num)
    · rw [hsc]
      have := mul_lt_mul_of_pos_right h1 (show (0:ℚ) < 2 / 5 by norm_num)
      linarith
  | true =>
    rw [hf] at hlb hsc
    simp only [if_true] at hsc
    refine ⟨fun _ => ?_, fun hcon => absurd (hlb ▸ hcon) (by simp)⟩
    constructor
    · rw [hsc]
      have := mul_nonneg h0 (show (0:ℚ) ≤ 1 / 2 by norm_num)
      linarith
    · rw [hsc]
      have := mul_lt_mul_of_pos_right h1 (show (0:ℚ) < 1 / 2 by norm_num)
      linarith

/-- C7: for every count, offset and draw stream (with draws in [0,1)),
the generator returns exactly `count` records, their ids
`TX(offset+i+1)` are pairwise distinct, every amount lies in [100, 5100],
record `i`'s fraud flag is set exactly when its fraud draw exceeds 0.7,
and every score is consistent with the flag: fraudulent records score in
[0.5, 1) and legitimate records in [0, 0.4). -/
theorem mock_generator_properties (draws : ℕ → RandDraws) (now : ℤ) (count offset : ℕ)
    (hd : ∀ i, i < count → 0 ≤ (draws i).amtDraw ∧ (draws i).amtDraw < 1 ∧
      0 ≤ (draws i).scoreDraw ∧ (draws i).scoreDraw < 1) :
    (generateMockTransactions draws now count offset).length = count ∧
    ((generateMockTransactions draws now count offset).map
      (fun t => t.tx.transaction_id)).Nodup ∧
    (∀ t ∈ generateMockTransactions draws now count offset,
      100 ≤ t.tx.amount ∧ t.tx.amount ≤ 5100) ∧
    (∀ i, i < count → (generateMockTransactions draws now count offset)[i]? =
      some (mockRecord (draws i) now (offset + i + 1))) ∧
    (∀ d : RandDraws, ∀ n : ℤ, ∀ k : ℕ,
      (mockRecord d n k).label = decide (d.fraudDraw > 7 / 10)) ∧
    (∀ t ∈ generateMockTransactions draws now count offset,
      (t.label = true → 1 / 2 ≤ t.score ∧ t.score < 1) ∧
      (t.label = false → 0 ≤ t.score ∧ t.score < 2 / 5)) := by
  refine ⟨by simp [generateMockTransactions], ?_, ?_, ?_, fun _ _ _ => rfl, ?_⟩
  · have hids : ((generateMockTransactions draws now count offset).map
        (fun t => t.tx.transaction_id)) =
        (List.range count).map (fun i => "TX" ++ natToString (offset + i + 1)) := by
      simp only [generateMockTransactions, List.map_map]
      exact List.map_congr_left (fun i _ => rfl)
    rw [hids]
    exact (List.nodup_range count).map (txId_inj offset)
  · intro t ht
    obtain ⟨i, hi, rfl⟩ := List.mem_map.mp ht
    have hi' := List.mem_range.mp hi
    have hamt : (mockRecord (draws i) now (offset + i + 1)).tx.amount =
        round2 ((draws i).amtDraw * 5000 + 100) := rfl
    rw [hamt]
    exact round2_amt_bounds (hd i hi').1 (hd i hi').2.1
  · intro i hi
    simp [generateMockTransactions, List.getElem?_map, List.getElem?_range, hi]
  · intro t ht
    obtain ⟨i, hi, rfl⟩ := List.mem_map.mp ht
    have hi' := List.mem_range.mp hi
    exact mockRecord_score_bounds (hd i hi').2.2.1 (hd i hi').2.2.2

/-- Witness for C7 at a concrete input: `generate(100, 0)` over the
example draw stream yields 100 records with pairwise distinct ids. -/
theorem mock_generator_properties_witness :
    (generateMockTransactions exampleDraws 0 100 0).length = 100 ∧
    ((generateMockTransactions exampleDraws 0 100 0).map
      (fun t => t.tx.transaction_id)).Nodup :=
  ⟨(mock_generator_properties exampleDraws 0 100 0
      (fun i _ => by norm_num [exampleDraws])).1,
   (mock_generator_properties exampleDraws 0 100 0
      (fun i _ => by norm_num [exampleDraws])).2.1⟩

/-- C8: the explanation normalization maps each backend item to the
canonical shape: an item using `shapValue` instead of `shap_value` gets
that value as canonical `shap_value`; `feature_name` instead of
`feature` becomes the canonical feature name; `feature_value` instead of
`value` becomes the canonical raw value; and when the standard names are
the ones offered, their values are preserved unchanged. -/
theorem explanation_normalization_canonical
    (it : RawExplanationItem) (v : ℚ) (f : String) (w : ℚ) :
    (it.shapValue = some v → it.shap_value = none → (normalizeItem it).shap_value = v) ∧
    (it.feature_name = some f → it.feature = none → (normalizeItem it).feature = f) ∧
    (it.feature_value = some w → it.value = none → (normalizeItem it).raw_value = some w) ∧
    (it.shap_value = some v → it.shapValue = none → (normalizeItem it).shap_value = v) ∧
    (it.feature = some f → it.feature_name = none → (normalizeItem it).feature = f) ∧
    (it.value = some w → it.feature_value = none → (normalizeItem it).raw_value = some w) := by
  refine ⟨?_, ?_, ?_, ?_, ?_, ?_⟩ <;> intro h1 h2 <;> simp [normalizeItem, h1, h2]

/-- Witness for C8 at a concrete input: the alias-only item normalizes to
its alias values. -/
theorem explanation_normalization_canonical_witness :
    (normalizeItem aliasRawItem).shap_value = 3 / 20 ∧
    (normalizeItem aliasRawItem).feature = "num__amount" ∧
    (normalizeItem aliasRawItem).raw_value = some 42 :=
  ⟨(explanation_normalization_canonical aliasRawItem (3 / 20) "num__amount" 42).1 rfl rfl,
   (explanation_normalization_canonical aliasRawItem (3 / 20) "num__amount" 42).2.1 rfl rfl,
   (explanation_normalization_canonical aliasRawItem (3 / 20) "num__amount" 42).2.2.1 rfl rfl⟩

theorem countryStep_sum (t : ScoredTransaction) :
    ∀ acc : List CountryAgg,
      ((countryStep t acc).map (fun a => a.fraud + a.legitimate)).sum =
        (acc.map (fun a => a.fraud + a.legitimate)).sum + t.tx.amount := by
  intro acc
  induction acc with
  | nil => cases ht : t.label <;> simp [countryStep, ht]
  | cons a rest ih =>
    by_cases hc : a.country = t.tx.country
    · cases ht : t.label <;> simp [countryStep, hc, ht] <;> ring
    · simp only [countryStep, hc, if_false, List.map_cons, List.sum_cons, ih]
      ring

theorem countryData_sum (ts : List ScoredTransaction) :
    ((countryData ts).map (fun a => a.fraud + a.legitimate)).sum =
      (ts.map (fun t => t.tx.amount)).sum := by
  suffices h : ∀ acc : List CountryAgg,
      (((ts.foldl (fun acc t => countryStep t acc) acc).map
        (fun a => a.fraud + a.legitimate)).sum) =
        (acc.map (fun a => a.fraud + a.legitimate)).sum +
          (ts.map (fun t => t.tx.amount)).sum by
    simpa [countryData] using h []
  induction ts with
  | nil => intro acc; simp
  | cons t ts ih =>
    intro acc
    simp only [List.foldl_cons, List.map_cons, List.sum_cons]
    rw [ih (countryStep t acc), countryStep_sum]
    ring

theorem fraud_legit_count_partition (ts : List ScoredTransaction) :
    fraudCount ts + legitimateCount ts = ts.length := by
  induction ts with
  | nil => rfl
  | cons a l ih =>
    cases ha : a.label <;>
      simp [fraudCount, legitimateCount, List.filter_cons, ha] at ih ⊢ <;>
      omega

/-- C9: the chart aggregations conserve totals: the per-country fraud
plus legitimate amounts sum to the total amount of the input, and the
fraud and legitimate counts of the pie chart partition the input
count. -/
theorem aggregation_totals_conserved (ts : List ScoredTransaction) :
    ((countryData ts).map (fun a => a.fraud + a.legitimate)).sum =
      (ts.map (fun t => t.tx.amount)).sum ∧
    fraudCount ts + legitimateCount ts = ts.length :=
  ⟨countryData_sum ts, fraud_legit_count_partition ts⟩

/-- Counterexample to C10 as stated: a filter change while the dashboard
sits on page 2 with only one matching row leaves the page index at 2 —
it is not clamped or reset to 1 — and the displayed page is empty. -/
theorem page_beyond_range_not_reset :
    (changeFilters pagedState defaultFilterSpec).page = 2 ∧
    (changeFilters pagedState defaultFilterSpec).total = 1 ∧
    ((changeFilters pagedState defaultFilterSpec).page - 1) *
      (changeFilters pagedState defaultFilterSpec).perPage ≥
      (changeFilters pagedState defaultFilterSpec).total ∧
    (changeFilters pagedState defaultFilterSpec).transactions = [] := by
  refine ⟨rfl, ?_, ?_, ?_⟩
  · norm_num [changeFilters, recomputeView, applyFilters, applyFiltersList,
      defaultFilterSpec, pagedState, exampleScored, exampleTx, List.filter]
  · norm_num [changeFilters, recomputeView, applyFilters, applyFiltersList,
      defaultFilterSpec, pagedState, exampleScored, exampleTx, List.filter]
  · norm_num [changeFilters, recomputeView, applyFilters, applyFiltersList,
      defaultFilterSpec, pagedState, exampleScored, exampleTx, List.filter]

/-- C10 (amended): a filter or search change never touches the page
index; when the remaining matches all lie before the current page's
slice, the displayed page is simply empty rather than being clamped or
reset to page 1 (page navigation is only clamped by the pager buttons,
and `resetFilters` returns to page 1 on user action). -/
theorem filter_change_keeps_page_index (st : DashState) (spec : FilterSpec)
    (h : (changeFilters st spec).total ≤
      ((changeFilters st spec).page - 1) * (changeFilters st spec).perPage) :
    (changeFilters st spec).page = st.page ∧
    (changeFilters st spec).transactions = [] := by
  refine ⟨rfl, ?_⟩
  have hlen : (applyFiltersList spec st.allTransactions).length ≤
      (st.page - 1) * st.perPage := h
  have ht : (changeFilters st spec).transactions =
      ((applyFiltersList spec st.allTransactions).drop
        ((st.page - 1) * st.perPage)).take st.perPage := rfl
  rw [ht, List.drop_eq_nil_of_le hlen, List.take_nil]

/-- Witness for the amended C10 at a concrete input: on page 2 with one
matching row the page index stays 2 and the displayed page is empty. -/
theorem filter_change_keeps_page_index_witness :
    (changeFilters pagedState defaultFilterSpec).page = pagedState.page ∧
    (changeFilters pagedState defaultFilterSpec).transactions = [] :=
  filter_change_keeps_page_index pagedState defaultFilterSpec
    (by norm_num [changeFilters, recomputeView, applyFilters, applyFiltersList,
      defaultFilterSpec, pagedState, exampleScored, exampleTx, List.filter])

end FraudDashboard
